import Mathlib

/-!
Verification of the infomux-IA repository's audio-level smoothing logic
(`app/gui.py`, class `SphereWidget`), of the LLM-fallback glue
(`app/model.py` and `app/server.py`, function `generate_response`) and of
the `/audio/{filename}` route handler (`app/server.py`, `get_audio`).

Python floats are modelled as real numbers (the spec's scenarios are stated
"up to floating-point/real-arithmetic tolerance"); Python strings are
modelled as lists of characters (so that slicing `s[:1000]` is `List.take`).
The source file `app/gui.py` is stored with its indentation stripped; the
block structure of `on_tick` is reconstructed following the spec's
skip-semantics (§4.1: when no blocks arrived this tick the whole loudness
update, including the smoothing assignment, is skipped).
-/

namespace Infomux

open Real Filter

/-- State of the `SphereWidget` animation tracker (`app/gui.py`):
`rms` is the exponentially smoothed loudness (`self.rms`), `pulse` the
smoothed animation drive (`self.pulse`), `tick` the oscillator phase
(`self.tick`). -/
structure SphereWidget where
  rms : ℝ
  pulse : ℝ
  tick : ℝ

/-- Mean of squares of one audio block's samples: `np.mean(np.square(arr))`
for the flattened (single-channel) block. For the empty block this is
`0 / 0 = 0` in the real-number model. -/
noncomputable def meanSquare (b : List ℝ) : ℝ :=
  (b.map fun x => x ^ 2).sum / b.length

/-- Instantaneous RMS over the blocks drained from the queue this tick:
the accumulated `rms += np.mean(np.square(arr))` divided by `count`,
then `np.sqrt` (lines 43-51 of `app/gui.py`). -/
noncomputable def instantaneousRms (blocks : List (List ℝ)) : ℝ :=
  Real.sqrt ((blocks.map meanSquare).sum / blocks.length)

/-- One execution of `SphereWidget.on_tick` (`app/gui.py` lines 42-57).
`blocks` is the list of audio blocks pending in `audio_q` when the tick
fires (the `while not audio_q.empty()` drain). When no block is pending
(`count == 0`) the loudness update is skipped; otherwise
`self.rms = max(0.0, self.rms*0.85 + float(rms)*0.15)`. Then the phase
advances by `0.05`, `breathe = (np.sin(self.tick)+1.0)/2.0`,
`target = min(1.0, breathe*0.8 + self.rms*20.0)` and
`self.pulse = self.pulse*0.8 + target*0.2`. -/
noncomputable def on_tick (blocks : List (List ℝ)) (s : SphereWidget) : SphereWidget :=
  let rms' :=
    if blocks = [] then s.rms
    else max 0 (s.rms * 0.85 + instantaneousRms blocks * 0.15)
  let tick' := s.tick + 0.05
  let breathe := (Real.sin tick' + 1) / 2
  let target := min 1 (breathe * 0.8 + rms' * 20)
  { rms := rms', pulse := s.pulse * 0.8 + target * 0.2, tick := tick' }

/-- Fresh tracker created in `SphereWidget.__init__`: `pulse = 0`,
`rms = 0`, `tick = 0`. -/
noncomputable def freshWidget : SphereWidget := ⟨0, 0, 0⟩

lemma on_tick_rms (blocks : List (List ℝ)) (s : SphereWidget) :
    (on_tick blocks s).rms =
      if blocks = [] then s.rms
      else max 0 (s.rms * 0.85 + instantaneousRms blocks * 0.15) := rfl

lemma on_tick_tick (blocks : List (List ℝ)) (s : SphereWidget) :
    (on_tick blocks s).tick = s.tick + 0.05 := rfl

lemma on_tick_pulse (blocks : List (List ℝ)) (s : SphereWidget) :
    (on_tick blocks s).pulse =
      s.pulse * 0.8 +
        min 1 ((Real.sin (s.tick + 0.05) + 1) / 2 * 0.8 + (on_tick blocks s).rms * 20) * 0.2 :=
  rfl

lemma breathe_nonneg (x : ℝ) : 0 ≤ (Real.sin x + 1) / 2 := by
  have h := Real.neg_one_le_sin x
  linarith

lemma breathe_le_one (x : ℝ) : (Real.sin x + 1) / 2 ≤ 1 := by
  have h := Real.sin_le_one x
  linarith

lemma on_tick_rms_nonneg (blocks : List (List ℝ)) (s : SphereWidget)
    (h : 0 ≤ s.rms) : 0 ≤ (on_tick blocks s).rms := by
  rw [on_tick_rms]
  split
  · exact h
  · exact le_max_left _ _

lemma on_tick_pulse_nonneg (blocks : List (List ℝ)) (s : SphereWidget)
    (hp : 0 ≤ s.pulse) (hr : 0 ≤ s.rms) : 0 ≤ (on_tick blocks s).pulse := by
  rw [on_tick_pulse]
  have h1 : 0 ≤ (on_tick blocks s).rms := on_tick_rms_nonneg blocks s hr
  have h2 : 0 ≤ (Real.sin (s.tick + 0.05) + 1) / 2 := breathe_nonneg _
  have h3 : 0 ≤ min 1 ((Real.sin (s.tick + 0.05) + 1) / 2 * 0.8 + (on_tick blocks s).rms * 20) :=
    le_min (by norm_num) (by nlinarith)
  nlinarith

/-- Claim C2: on a tick with at least one pending block, the loudness update
computes each pending block's mean of squares, averages these over the
pending blocks, takes the square root of the average as the instantaneous
RMS, and sets the smoothed RMS to `0.85*smoothedRms + 0.15*instantaneousRms`
floored at 0. -/
theorem tick_loudness_update (blocks : List (List ℝ)) (s : SphereWidget)
    (h : blocks ≠ []) :
    (on_tick blocks s).rms =
      max 0 (0.85 * s.rms +
        0.15 * Real.sqrt ((blocks.map fun b => (b.map fun x => x ^ 2).sum / (b.length : ℝ)).sum /
          (blocks.length : ℝ))) := by
  rw [on_tick_rms, if_neg h]
  unfold instantaneousRms meanSquare
  congr 1
  ring

/-- Witness for C2 at a concrete one-block input. -/
theorem tick_loudness_update_witness :
    (on_tick [[(1 : ℝ)]] freshWidget).rms =
      max 0 (0.85 * freshWidget.rms +
        0.15 * Real.sqrt ((([[(1 : ℝ)]].map fun b =>
            (b.map fun x => x ^ 2).sum / (b.length : ℝ)).sum /
          ((([[(1 : ℝ)]] : List (List ℝ)).length : ℝ))))) :=
  tick_loudness_update [[(1 : ℝ)]] freshWidget (by simp)

/-- Claim C3: every tick advances the phase by exactly 0.05, computes
`breathe = (sin(phase)+1)/2` at the advanced phase, forms
`target = min(1, breathe*0.8 + smoothedRms*20)` with the (possibly updated)
smoothed RMS, and sets `pulse = pulse*0.8 + target*0.2`. -/
theorem tick_phase_and_pulse (blocks : List (List ℝ)) (s : SphereWidget) :
    (on_tick blocks s).tick = s.tick + 0.05 ∧
    (on_tick blocks s).pulse =
      s.pulse * 0.8 +
        min 1 ((Real.sin (s.tick + 0.05) + 1) / 2 * 0.8 + (on_tick blocks s).rms * 20) * 0.2 :=
  ⟨on_tick_tick blocks s, on_tick_pulse blocks s⟩

/-- Claim C4: the invariant `smoothedRms ≥ 0` is preserved by every tick,
for every sequence of pending blocks, including blocks with negative
samples. -/
theorem tick_preserves_rms_nonneg (blocks : List (List ℝ)) (s : SphereWidget)
    (h : 0 ≤ s.rms) : 0 ≤ (on_tick blocks s).rms :=
  on_tick_rms_nonneg blocks s h

/-- Witness for C4 at a concrete negative-sample input. -/
theorem tick_preserves_rms_nonneg_witness :
    0 ≤ (on_tick [[(-1 : ℝ)]] freshWidget).rms :=
  tick_preserves_rms_nonneg [[(-1 : ℝ)]] freshWidget le_rfl

/-- Claim C5: if `pulse ≤ 1` before a tick then `pulse ≤ 1` after it, for
every input, since the target is clamped to at most 1 and the new pulse is
the convex combination `0.8*pulse + 0.2*target`. -/
theorem tick_pulse_le_one (blocks : List (List ℝ)) (s : SphereWidget)
    (h : s.pulse ≤ 1) : (on_tick blocks s).pulse ≤ 1 := by
  rw [on_tick_pulse]
  have h1 : min 1 ((Real.sin (s.tick + 0.05) + 1) / 2 * 0.8 + (on_tick blocks s).rms * 20) ≤ 1 :=
    min_le_left _ _
  nlinarith

/-- Witness for C5 at a concrete input. -/
theorem tick_pulse_le_one_witness :
    (on_tick [[(1 : ℝ)]] freshWidget).pulse ≤ 1 :=
  tick_pulse_le_one [[(1 : ℝ)]] freshWidget (by norm_num [freshWidget])

lemma empty_iter_rms (s : SphereWidget) (n : ℕ) :
    ((on_tick [])^[n] s).rms = s.rms := by
  induction n with
  | zero => rfl
  | succ k ih =>
      rw [Function.iterate_succ_apply', on_tick_rms, if_pos rfl, ih]

/-- Claim C6: on a tick with no pending blocks the smoothed RMS is left
exactly unchanged, and repeated empty ticks never change it (only the
phase and the pulse move). -/
theorem empty_ticks_keep_rms (s : SphereWidget) (n : ℕ) :
    ((on_tick [])^[n] s).rms = s.rms :=
  empty_iter_rms s n

lemma meanSquare_replicate_tenth :
    meanSquare (List.replicate 3200 ((0.1 : ℝ))) = 0.01 := by
  unfold meanSquare
  rw [List.map_replicate, List.sum_replicate, nsmul_eq_mul, List.length_replicate]
  norm_num

lemma instantaneousRms_replicate_tenth :
    instantaneousRms [List.replicate 3200 ((0.1 : ℝ))] = 0.1 := by
  unfold instantaneousRms
  have h : ((([List.replicate 3200 ((0.1 : ℝ))].map meanSquare).sum) /
      ((([List.replicate 3200 ((0.1 : ℝ))] : List (List ℝ)).length : ℕ) : ℝ)) = 0.1 ^ 2 := by
    rw [List.map_cons, List.map_nil, List.sum_cons, List.sum_nil,
      meanSquare_replicate_tenth]
    norm_num
  rw [h]
  exact Real.sqrt_sq (by norm_num)

/-- Claim C1: from a fresh tracker, one pending block of 3200 samples all
equal to 0.1 and a single tick give `smoothedRms = 0.015` exactly, and,
within a 0.001 tolerance, `breathe ≈ 0.525`, `target ≈ 0.72` and
`pulse ≈ 0.144`. -/
theorem fresh_one_block_scenario :
    (on_tick [List.replicate 3200 ((0.1 : ℝ))] freshWidget).rms = 0.015 ∧
    |(Real.sin 0.05 + 1) / 2 - 0.525| < 0.001 ∧
    |min 1 ((Real.sin 0.05 + 1) / 2 * 0.8 +
        (on_tick [List.replicate 3200 ((0.1 : ℝ))] freshWidget).rms * 20) - 0.72| < 0.001 ∧
    |(on_tick [List.replicate 3200 ((0.1 : ℝ))] freshWidget).pulse - 0.144| < 0.001 := by
  have hrms : (on_tick [List.replicate 3200 ((0.1 : ℝ))] freshWidget).rms = 0.015 := by
    rw [on_tick_rms, if_neg (List.cons_ne_nil _ _), instantaneousRms_replicate_tenth]
    show max 0 (freshWidget.rms * 0.85 + 0.1 * 0.15) = 0.015
    rw [show freshWidget.rms = 0 from rfl]
    rw [max_eq_right (by norm_num)]
    norm_num
  have hs1 : Real.sin 0.05 < 0.05 := Real.sin_lt (by norm_num)
  have hs2 : (0.05 : ℝ) - 0.05 ^ 3 / 4 < Real.sin 0.05 :=
    Real.sin_gt_sub_cube (by norm_num) (by norm_num)
  have hbre : |(Real.sin 0.05 + 1) / 2 - 0.525| < 0.001 := by
    rw [abs_lt]
    constructor <;> nlinarith
  have htlt : (Real.sin 0.05 + 1) / 2 * 0.8 +
      (on_tick [List.replicate 3200 ((0.1 : ℝ))] freshWidget).rms * 20 < 1 := by
    rw [hrms]; nlinarith
  have hmin : min 1 ((Real.sin 0.05 + 1) / 2 * 0.8 +
      (on_tick [List.replicate 3200 ((0.1 : ℝ))] freshWidget).rms * 20) =
      (Real.sin 0.05 + 1) / 2 * 0.8 +
      (on_tick [List.replicate 3200 ((0.1 : ℝ))] freshWidget).rms * 20 :=
    min_eq_right (le_of_lt htlt)
  have htgt : |min 1 ((Real.sin 0.05 + 1) / 2 * 0.8 +
      (on_tick [List.replicate 3200 ((0.1 : ℝ))] freshWidget).rms * 20) - 0.72| < 0.001 := by
    rw [hmin, hrms, abs_lt]
    constructor <;> nlinarith
  refine ⟨hrms, hbre, htgt, ?_⟩
  have hpulse : (on_tick [List.replicate 3200 ((0.1 : ℝ))] freshWidget).pulse =
      freshWidget.pulse * 0.8 +
        min 1 ((Real.sin (freshWidget.tick + 0.05) + 1) / 2 * 0.8 +
          (on_tick [List.replicate 3200 ((0.1 : ℝ))] freshWidget).rms * 20) * 0.2 :=
    on_tick_pulse _ _
  rw [hpulse, show freshWidget.pulse = 0 from rfl,
    show freshWidget.tick + 0.05 = 0.05 by rw [show freshWidget.tick = 0 from rfl]; norm_num,
    hmin, hrms, abs_lt]
  constructor <;> nlinarith

lemma empty_iter_tick (s : SphereWidget) (n : ℕ) :
    ((on_tick [])^[n] s).tick = s.tick + 0.05 * n := by
  induction n with
  | zero => simp
  | succ k ih =>
      rw [Function.iterate_succ_apply', on_tick_tick, ih]
      push_cast
      ring

lemma empty_tick_pulse (s : SphereWidget) (h : s.rms = 0) :
    (on_tick [] s).pulse =
      s.pulse * 0.8 + ((Real.sin (s.tick + 0.05) + 1) / 2 * 0.8) * 0.2 := by
  rw [on_tick_pulse, on_tick_rms, if_pos rfl, h]
  rw [min_eq_right (by nlinarith [breathe_le_one (s.tick + 0.05)])]
  ring

lemma empty_iter_pulse_bounds (n : ℕ) :
    0 ≤ ((on_tick [])^[n] freshWidget).pulse ∧
      ((on_tick [])^[n] freshWidget).pulse ≤ 0.8 := by
  induction n with
  | zero =>
      constructor <;> norm_num [freshWidget]
  | succ k ih =>
      rw [Function.iterate_succ_apply',
        empty_tick_pulse _ (empty_iter_rms freshWidget k)]
      have hb0 := breathe_nonneg (((on_tick [])^[k] freshWidget).tick + 0.05)
      have hb1 := breathe_le_one (((on_tick [])^[k] freshWidget).tick + 0.05)
      constructor <;> nlinarith [ih.1, ih.2]

/-- Claim C8: when no blocks are ever fed to a fresh tracker, on every tick
the smoothed RMS stays 0, the target degrades to `breathe*0.8` (always
strictly below 1), and the pulse follows the pure idle-breathing recurrence,
staying within `[0, 0.8]`; the update is total, so no failure state ever
arises. -/
theorem no_audio_idle_behavior : ∀ n : ℕ,
    ((on_tick [])^[n] freshWidget).rms = 0 ∧
    0 ≤ ((on_tick [])^[n] freshWidget).pulse ∧
    ((on_tick [])^[n] freshWidget).pulse ≤ 0.8 ∧
    ((on_tick [])^[n + 1] freshWidget).pulse =
      ((on_tick [])^[n] freshWidget).pulse * 0.8 +
        ((Real.sin (0.05 * ((n : ℝ) + 1)) + 1) / 2 * 0.8) * 0.2 ∧
    (Real.sin (0.05 * ((n : ℝ) + 1)) + 1) / 2 * 0.8 < 1 := by
  intro n
  have harg : ((on_tick [])^[n] freshWidget).tick + 0.05 = 0.05 * ((n : ℝ) + 1) := by
    rw [empty_iter_tick, show freshWidget.tick = 0 from rfl]
    ring
  refine ⟨empty_iter_rms freshWidget n, (empty_iter_pulse_bounds n).1,
    (empty_iter_pulse_bounds n).2, ?_, ?_⟩
  · rw [Function.iterate_succ_apply',
      empty_tick_pulse _ (empty_iter_rms freshWidget n), harg]
  · nlinarith [breathe_le_one (0.05 * ((n : ℝ) + 1))]

/-- Trajectory of the tracker when tick `n` drains the block list `B n`
from the queue. -/
noncomputable def traj (B : ℕ → List (List ℝ)) (s : SphereWidget) : ℕ → SphereWidget
  | 0 => s
  | n + 1 => on_tick (B n) (traj B s n)

/-- Reference pure idle-breathing sequence: the pulse recurrence with the
loudness contribution removed, so the target is `breathe*0.8` at the phase
reached after each tick. -/
noncomputable def pureBreath (phi p0 : ℝ) : ℕ → ℝ
  | 0 => p0
  | n + 1 => pureBreath phi p0 n * 0.8 +
      ((Real.sin (phi + 0.05 * ((n : ℝ) + 1)) + 1) / 2 * 0.8) * 0.2

lemma all_zero_instantaneousRms (blocks : List (List ℝ))
    (hz : ∀ b ∈ blocks, ∀ x ∈ b, x = 0) : instantaneousRms blocks = 0 := by
  unfold instantaneousRms
  have hsum : (blocks.map meanSquare).sum = 0 := by
    apply List.sum_eq_zero
    intro y hy
    rw [List.mem_map] at hy
    obtain ⟨b, hb, rfl⟩ := hy
    unfold meanSquare
    have hbs : (b.map fun x => x ^ 2).sum = 0 := by
      apply List.sum_eq_zero
      intro z hz2
      rw [List.mem_map] at hz2
      obtain ⟨x, hx, rfl⟩ := hz2
      rw [hz b hb x hx]
      norm_num
    rw [hbs, zero_div]
  rw [hsum, zero_div, Real.sqrt_zero]

lemma silent_tick_rms (blocks : List (List ℝ)) (s : SphereWidget)
    (hne : blocks ≠ []) (hz : ∀ b ∈ blocks, ∀ x ∈ b, x = 0) (hr : 0 ≤ s.rms) :
    (on_tick blocks s).rms = 0.85 * s.rms := by
  rw [on_tick_rms, if_neg hne, all_zero_instantaneousRms blocks hz,
    max_eq_right (by nlinarith)]
  ring

lemma traj_rms (B : ℕ → List (List ℝ)) (s : SphereWidget)
    (hne : ∀ n, B n ≠ []) (hz : ∀ n, ∀ b ∈ B n, ∀ x ∈ b, x = 0)
    (hr : 0 ≤ s.rms) : ∀ n, (traj B s n).rms = 0.85 ^ n * s.rms := by
  intro n
  induction n with
  | zero => show s.rms = 0.85 ^ 0 * s.rms; rw [pow_zero, one_mul]
  | succ k ih =>
      show (on_tick (B k) (traj B s k)).rms = _
      rw [silent_tick_rms _ _ (hne k) (hz k) (by rw [ih]; positivity), ih,
        pow_succ]
      ring

lemma traj_tick (B : ℕ → List (List ℝ)) (s : SphereWidget) :
    ∀ n, (traj B s n).tick = s.tick + 0.05 * n := by
  intro n
  induction n with
  | zero => show s.tick = s.tick + 0.05 * (0 : ℕ); norm_num
  | succ k ih =>
      show (on_tick (B k) (traj B s k)).tick = _
      rw [on_tick_tick, ih]
      push_cast
      ring

lemma traj_pulse_nonneg (B : ℕ → List (List ℝ)) (s : SphereWidget)
    (hr : 0 ≤ s.rms) (hp : 0 ≤ s.pulse) :
    ∀ n, 0 ≤ (traj B s n).pulse ∧ 0 ≤ (traj B s n).rms := by
  intro n
  induction n with
  | zero => exact ⟨hp, hr⟩
  | succ k ih =>
      exact ⟨on_tick_pulse_nonneg _ _ ih.1 ih.2, on_tick_rms_nonneg _ _ ih.2⟩

lemma pureBreath_succ (phi p0 : ℝ) (k : ℕ) :
    pureBreath phi p0 (k + 1) = pureBreath phi p0 k * 0.8 +
      ((Real.sin (phi + 0.05 * ((k : ℝ) + 1)) + 1) / 2 * 0.8) * 0.2 := rfl

lemma pureBreath_bounds (phi p0 : ℝ) (h0 : 0 ≤ p0) (h1 : p0 ≤ 0.8) :
    ∀ n, 0 ≤ pureBreath phi p0 n ∧ pureBreath phi p0 n ≤ 0.8 := by
  intro n
  induction n with
  | zero => exact ⟨h0, h1⟩
  | succ k ih =>
      rw [pureBreath_succ]
      have hb0 := breathe_nonneg (phi + 0.05 * ((k : ℝ) + 1))
      have hb1 := breathe_le_one (phi + 0.05 * ((k : ℝ) + 1))
      constructor <;> nlinarith [ih.1, ih.2]

lemma traj_pure_error (B : ℕ → List (List ℝ)) (s : SphereWidget)
    (hne : ∀ n, B n ≠ []) (hz : ∀ n, ∀ b ∈ B n, ∀ x ∈ b, x = 0)
    (hr : 0 ≤ s.rms) :
    ∀ n, |(traj B s n).pulse - pureBreath s.tick (min s.pulse 0.8) n| ≤
      (max (s.pulse - 0.8) 0 + 80 * s.rms) * 0.85 ^ n := by
  have hmax0 : (0 : ℝ) ≤ max (s.pulse - 0.8) 0 := le_max_right _ _
  intro n
  induction n with
  | zero =>
      show |s.pulse - min s.pulse 0.8| ≤ _
      rw [pow_zero, mul_one]
      rcases le_total s.pulse 0.8 with h | h
      · rw [min_eq_left h, sub_self, abs_zero]
        nlinarith
      · rw [min_eq_right h, abs_of_nonneg (by linarith)]
        nlinarith [le_max_left (s.pulse - 0.8) 0]
  | succ k ih =>
      have htick : (traj B s k).tick + 0.05 = s.tick + 0.05 * ((k : ℝ) + 1) := by
        rw [traj_tick]
        ring
      have hrmsk1 : (on_tick (B k) (traj B s k)).rms = 0.85 ^ (k + 1) * s.rms :=
        traj_rms B s hne hz hr (k + 1)
      have hb0 := breathe_nonneg (s.tick + 0.05 * ((k : ℝ) + 1))
      have hb1 := breathe_le_one (s.tick + 0.05 * ((k : ℝ) + 1))
      have hrk : (0 : ℝ) ≤ 0.85 ^ (k + 1) * s.rms := by positivity
      have ht_lb : (Real.sin (s.tick + 0.05 * ((k : ℝ) + 1)) + 1) / 2 * 0.8 ≤
          min 1 ((Real.sin (s.tick + 0.05 * ((k : ℝ) + 1)) + 1) / 2 * 0.8 +
            0.85 ^ (k + 1) * s.rms * 20) :=
        le_min (by nlinarith) (by nlinarith)
      have ht_ub : min 1 ((Real.sin (s.tick + 0.05 * ((k : ℝ) + 1)) + 1) / 2 * 0.8 +
          0.85 ^ (k + 1) * s.rms * 20) ≤
            (Real.sin (s.tick + 0.05 * ((k : ℝ) + 1)) + 1) / 2 * 0.8 +
            0.85 ^ (k + 1) * s.rms * 20 := min_le_right _ _
      have hstep : (traj B s (k + 1)).pulse -
          pureBreath s.tick (min s.pulse 0.8) (k + 1) =
          0.8 * ((traj B s k).pulse - pureBreath s.tick (min s.pulse 0.8) k) +
          0.2 * (min 1 ((Real.sin (s.tick + 0.05 * ((k : ℝ) + 1)) + 1) / 2 * 0.8 +
              0.85 ^ (k + 1) * s.rms * 20) -
            (Real.sin (s.tick + 0.05 * ((k : ℝ) + 1)) + 1) / 2 * 0.8) := by
        show (on_tick (B k) (traj B s k)).pulse -
            (pureBreath s.tick (min s.pulse 0.8) k * 0.8 + _) = _
        rw [on_tick_pulse, htick, hrmsk1]
        ring
      have hd := abs_le.mp ih
      have hpow : (0 : ℝ) ≤ 0.85 ^ k := by positivity
      rw [hstep, pow_succ, abs_le]
      rw [pow_succ] at ht_lb ht_ub hrk
      constructor <;>
        nlinarith [hd.1, hd.2, ht_lb, ht_ub, mul_nonneg hpow hr,
          mul_nonneg hpow hmax0]

lemma tendsto_const_mul_geom (C : ℝ) :
    Tendsto (fun n : ℕ => C * 0.85 ^ n) atTop (nhds 0) := by
  have h := tendsto_pow_atTop_nhds_zero_of_lt_one
    (by norm_num : (0 : ℝ) ≤ 0.85) (by norm_num : (0.85 : ℝ) < 1)
  simpa using h.const_mul C

/-- Claim C7: under silence (every tick drains at least one block and all
samples are 0), the smoothed RMS after `n` ticks is exactly `0.85^n` times
its initial value, the pulse stays nonnegative, and the pulse converges to
the pure idle oscillation driven by `breathe*0.8`, a sequence confined to
`[0, 0.8]`. -/
theorem silence_convergence (B : ℕ → List (List ℝ)) (s : SphereWidget)
    (hne : ∀ n, B n ≠ []) (hz : ∀ n, ∀ b ∈ B n, ∀ x ∈ b, x = 0)
    (hr : 0 ≤ s.rms) (hp : 0 ≤ s.pulse) :
    (∀ n, (traj B s n).rms = 0.85 ^ n * s.rms) ∧
    (∀ n, 0 ≤ (traj B s n).pulse) ∧
    (∀ n, 0 ≤ pureBreath s.tick (min s.pulse 0.8) n ∧
      pureBreath s.tick (min s.pulse 0.8) n ≤ 0.8) ∧
    Tendsto (fun n => |(traj B s n).pulse - pureBreath s.tick (min s.pulse 0.8) n|)
      atTop (nhds 0) := by
  refine ⟨traj_rms B s hne hz hr, fun n => (traj_pulse_nonneg B s hr hp n).1,
    pureBreath_bounds s.tick (min s.pulse 0.8)
      (le_min hp (by norm_num)) (min_le_right _ _), ?_⟩
  exact squeeze_zero (fun n => abs_nonneg _) (traj_pure_error B s hne hz hr)
    (tendsto_const_mul_geom _)

/-- Witness for C7: silence blocks fed to the fresh tracker. -/
theorem silence_convergence_witness :
    (∀ n, (traj (fun _ => [[(0 : ℝ)]]) freshWidget n).rms = 0.85 ^ n * freshWidget.rms) ∧
    (∀ n, 0 ≤ (traj (fun _ => [[(0 : ℝ)]]) freshWidget n).pulse) ∧
    (∀ n, 0 ≤ pureBreath freshWidget.tick (min freshWidget.pulse 0.8) n ∧
      pureBreath freshWidget.tick (min freshWidget.pulse 0.8) n ≤ 0.8) ∧
    Tendsto (fun n => |(traj (fun _ => [[(0 : ℝ)]]) freshWidget n).pulse -
      pureBreath freshWidget.tick (min freshWidget.pulse 0.8) n|) atTop (nhds 0) :=
  silence_convergence (fun _ => [[(0 : ℝ)]]) freshWidget
    (fun _ => List.cons_ne_nil _ _)
    (fun _ b hb x hx => by
      rw [List.mem_singleton] at hb
      subst hb
      rw [List.mem_singleton] at hx
      exact hx)
    le_rfl le_rfl

/-! The LLM glue. Python strings are modelled as `List Char`, so Python
slicing `prompt[:1000]` is `List.take 1000` and `str.strip()` is dropping
whitespace at both ends. The environment a call runs in (whether
`shutil.which('ollama')` finds the CLI, and how `subprocess.run` ends:
an exception such as a timeout, or a completed process with a return code
and captured stdout) is a parameter. -/

/-- Python `str.strip()` with no argument: remove leading and trailing
whitespace. -/
def pyStrip (s : List Char) : List Char :=
  ((s.dropWhile Char.isWhitespace).reverse.dropWhile Char.isWhitespace).reverse

/-- Outcome of the surrounding process environment for one
`generate_response` call: `ollamaOnPath` is `shutil.which('ollama')`
being non-null; `runOutcome` is `none` when `subprocess.run` raises
(timeout and any other exception) and otherwise carries the completed
process's return code and stdout. -/
structure SubprocEnv where
  ollamaOnPath : Bool
  runOutcome : Option (Int × List Char)

/-- The apostrophe character, spelled via its code point. -/
def apostrophe : Char := Char.ofNat 39

/-- Literal prefix of the fallback reply of `app/server.py`
(`generate_response`, line 199): the text before the interpolated prompt
slice. -/
def serverFallbackPrefix : List Char :=
  "(Fallback LLM) J".data ++ [apostrophe] ++ "ai reçu : ".data

/-- Fallback reply of `app/server.py`: the prefix followed by the first
1000 characters of the prompt (`prompt[:1000]`). -/
def serverFallback (prompt : List Char) : List Char :=
  serverFallbackPrefix ++ prompt.take 1000

/-- Literal prefix of the fallback reply of `app/model.py` (line 17). -/
def modelFallbackPrefix : List Char :=
  "(fallback) J".data ++ [apostrophe] ++ "ai reçu : ".data

/-- Fallback reply of `app/model.py`: the prefix followed by the whole
prompt. -/
def modelFallback (prompt : List Char) : List Char :=
  modelFallbackPrefix ++ prompt

/-- `generate_response` of `app/server.py` (lines 172-200): when ollama is
on the path, run it; on a zero return code with non-empty stripped stdout
return that stdout; in every other case (CLI absent, exception, nonzero
exit, empty output) return the fallback text. -/
def server_generate_response (env : SubprocEnv) (prompt : List Char) : List Char :=
  if env.ollamaOnPath then
    match env.runOutcome with
    | some (rc, out) =>
        if rc = 0 then
          if pyStrip out ≠ [] then pyStrip out else serverFallback prompt
        else serverFallback prompt
    | none => serverFallback prompt
  else serverFallback prompt

/-- `generate_response` of `app/model.py` (lines 7-17): same shape, but the
fallback embeds the whole prompt. -/
def model_generate_response (env : SubprocEnv) (prompt : List Char) : List Char :=
  if env.ollamaOnPath then
    match env.runOutcome with
    | some (rc, out) =>
        if rc = 0 ∧ pyStrip out ≠ [] then pyStrip out else modelFallback prompt
    | none => modelFallback prompt
  else modelFallback prompt

/-- The failure modes named by claim C9: the ollama CLI is absent, the
subprocess raises (failure or timeout), it exits nonzero, or it produces
only whitespace output. -/
def failureMode (env : SubprocEnv) : Prop :=
  env.ollamaOnPath = false ∨ env.runOutcome = none ∨
    ∃ rc out, env.runOutcome = some (rc, out) ∧ (rc ≠ 0 ∨ pyStrip out = [])

/-- A long prompt: 1100 letters. -/
def longPrompt : List Char := List.replicate 1100 'a'

lemma server_fallback_on_failure (env : SubprocEnv) (prompt : List Char)
    (h : failureMode env) :
    server_generate_response env prompt = serverFallback prompt := by
  obtain ⟨o, r⟩ := env
  rcases h with h | h | ⟨rc, out, hr, hbad⟩
  · simp only [SubprocEnv.ollamaOnPath] at h
    subst h
    rfl
  · simp only [SubprocEnv.runOutcome] at h
    subst h
    cases o <;> rfl
  · simp only [SubprocEnv.runOutcome] at hr
    subst hr
    cases o
    · rfl
    · rcases hbad with hbad | hbad
      · simp [server_generate_response, hbad]
      · by_cases hrc : rc = 0 <;> simp [server_generate_response, hrc, hbad]

lemma model_fallback_on_failure (env : SubprocEnv) (prompt : List Char)
    (h : failureMode env) :
    model_generate_response env prompt = modelFallback prompt := by
  obtain ⟨o, r⟩ := env
  rcases h with h | h | ⟨rc, out, hr, hbad⟩
  · simp only [SubprocEnv.ollamaOnPath] at h
    subst h
    rfl
  · simp only [SubprocEnv.runOutcome] at h
    subst h
    cases o <;> rfl
  · simp only [SubprocEnv.runOutcome] at hr
    subst hr
    cases o
    · rfl
    · rcases hbad with hbad | hbad
      · simp [model_generate_response, hbad]
      · simp [model_generate_response, hbad]

/-- Claim C9, counterexample: with the ollama CLI absent, the fallback of
`app/server.py` for a 1100-character prompt has only 1027 characters, so it
cannot contain the prompt. -/
theorem server_fallback_omits_long_prompt :
    ¬ ∃ a b : List Char,
      server_generate_response ⟨false, none⟩ longPrompt = a ++ longPrompt ++ b := by
  rintro ⟨a, b, h⟩
  have hres : server_generate_response ⟨false, none⟩ longPrompt =
      serverFallback longPrompt := rfl
  rw [hres] at h
  have hlen := congrArg List.length h
  have hp : serverFallbackPrefix.length = 27 := by decide
  have hlp : longPrompt.length = 1100 := by
    unfold longPrompt
    exact List.length_replicate _ _
  rw [serverFallback, List.length_append, List.length_append, List.length_append,
    List.length_take, hp, hlp] at hlen
  omega

/-- Claim C9 as amended: under every failure mode the two
`generate_response` variants return their fallback text; the `app/model.py`
fallback contains the whole prompt, while the `app/server.py` fallback
contains only the first 1000 characters of the prompt. -/
theorem generate_response_fallback (env : SubprocEnv) (prompt : List Char)
    (h : failureMode env) :
    server_generate_response env prompt = serverFallback prompt ∧
    model_generate_response env prompt = modelFallback prompt ∧
    (∃ a b, server_generate_response env prompt = a ++ prompt.take 1000 ++ b) ∧
    (∃ a b, model_generate_response env prompt = a ++ prompt ++ b) := by
  have hs := server_fallback_on_failure env prompt h
  have hm := model_fallback_on_failure env prompt h
  refine ⟨hs, hm, ⟨serverFallbackPrefix, [], ?_⟩, ⟨modelFallbackPrefix, [], ?_⟩⟩
  · rw [hs, serverFallback, List.append_nil]
  · rw [hm, modelFallback, List.append_nil]

/-- Sample prompt for the C9 witness. -/
def samplePrompt : List Char := "hi".data

/-- Witness for C9 (amended) in the ollama-absent environment. -/
theorem generate_response_fallback_witness :
    server_generate_response ⟨false, none⟩ samplePrompt = serverFallback samplePrompt ∧
    model_generate_response ⟨false, none⟩ samplePrompt = modelFallback samplePrompt ∧
    (∃ a b, server_generate_response ⟨false, none⟩ samplePrompt =
      a ++ samplePrompt.take 1000 ++ b) ∧
    (∃ a b, model_generate_response ⟨false, none⟩ samplePrompt =
      a ++ samplePrompt ++ b) :=
  generate_response_fallback ⟨false, none⟩ samplePrompt (Or.inl rfl)

/-! The `/audio/{filename}` route (`app/server.py`, `get_audio`,
lines 297-306). The filesystem is modelled as the predicate
`os.path.exists`; the audio directory is a parameter (its runtime value
depends on the installation path). -/

/-- Python substring test `needle in hay`. -/
def hasSubstr (hay needle : List Char) : Bool :=
  hay.tails.any fun t => needle.isPrefixOf t

/-- The two dots of the traversal check `".." in filename`. -/
def dotdot : List Char := ['.', '.']

/-- `os.path.join(a, b)` for two POSIX path segments: an absolute second
segment replaces the first; otherwise a separator is inserted unless the
first segment is empty or already ends in one. -/
def osPathJoin (a b : List Char) : List Char :=
  if b.head? = some '/' then b
  else if a = [] ∨ a.getLast? = some '/' then a ++ b
  else a ++ '/' :: b

/-- Responses the handler can produce: a `FileResponse` carrying the path,
media type `audio/wav` and download name, or an `HTTPException` with a
status code and French detail text. -/
inductive AudioReply where
  | fileResponse (path media fname : List Char)
  | httpError (statusCode : Nat) (detail : List Char)
deriving DecidableEq

/-- Detail text of the 400 reply. -/
def badNameDetail : List Char := "Nom de fichier invalide.".data

/-- Detail text of the 404 reply. -/
def notFoundDetail : List Char := "Fichier audio introuvable.".data

/-- The `get_audio` handler: reject filenames containing `..` or starting
with `/` with HTTP 400 before touching the filesystem, then join with the
audio directory, answer 404 when the joined path does not exist, and serve
the file otherwise. -/
def get_audio (audioDir : List Char) (fsExists : List Char → Bool)
    (filename : List Char) : AudioReply :=
  if hasSubstr filename dotdot ∨ filename.head? = some '/' then
    .httpError 400 badNameDetail
  else if fsExists (osPathJoin audioDir filename) then
    .fileResponse (osPathJoin audioDir filename) "audio/wav".data filename
  else
    .httpError 404 notFoundDetail

/-- Claim C10: the handler yields HTTP 400 for every filename containing
`..` or starting with `/`, independently of the filesystem (no filesystem
access); otherwise it yields HTTP 404 exactly when the joined path does not
exist; and it serves a file only when neither condition fires. -/
theorem get_audio_validation (audioDir : List Char) (fsExists : List Char → Bool)
    (filename : List Char) :
    ((hasSubstr filename dotdot ∨ filename.head? = some '/') →
      ∀ fs2 : List Char → Bool,
        get_audio audioDir fs2 filename = .httpError 400 badNameDetail) ∧
    (¬ (hasSubstr filename dotdot ∨ filename.head? = some '/') →
      fsExists (osPathJoin audioDir filename) = false →
      get_audio audioDir fsExists filename = .httpError 404 notFoundDetail) ∧
    (∀ p m f, get_audio audioDir fsExists filename = .fileResponse p m f →
      ¬ (hasSubstr filename dotdot ∨ filename.head? = some '/') ∧
      fsExists (osPathJoin audioDir filename) = true) := by
  refine ⟨?_, ?_, ?_⟩
  · intro hbad fs2
    simp [get_audio, hbad]
  · intro hgood hne
    simp [get_audio, hgood, hne]
  · intro p m f hfile
    by_cases hbad : hasSubstr filename dotdot ∨ filename.head? = some '/'
    · simp [get_audio, hbad] at hfile
    · by_cases hex : fsExists (osPathJoin audioDir filename) = true
      · exact ⟨hbad, hex⟩
      · have hex' : fsExists (osPathJoin audioDir filename) = false := by
          simpa using hex
        simp [get_audio, hbad, hex'] at hfile

/-- Sample directory for the C10 witness. -/
def sampleDir : List Char := "app/generated_audio".data

/-- Sample traversal filename for the C10 witness. -/
def traversalName : List Char := "a..b".data

/-- Witness for C10: a filename containing `..` is rejected with 400 on an
empty filesystem. -/
theorem get_audio_validation_witness :
    get_audio sampleDir (fun _ => false) traversalName =
      .httpError 400 badNameDetail :=
  (get_audio_validation sampleDir (fun _ => false) traversalName).1
    (Or.inl (by decide)) (fun _ => false)

end Infomux
